import Mathlib

/-!
Verification of the match-game engine of a memory card game
(`index.js`, jQuery-based).  The DOM/jQuery state is embedded shallowly:

* each card element becomes a `Card` record (its `data-card-id`,
  `data-pokemon-id` attributes and its `flipped`/`matched` CSS classes);
* the module-level mutable variables (`firstCard`, `secondCard`,
  `lockBoard`, `gameActive`, `clicks`, `pairsMatched`, `timeLeft`,
  `numPairs`, `timerInterval`, `powerUpUsedThisGame`) become fields of
  `GameState`;
* `setTimeout` callbacks become explicit `Callback` values queued in
  `GameState.pending`; firing a callback runs its body as a state
  function.  `setInterval`/`clearInterval` for the 1-second timer is the
  boolean `timerRunning` plus the `timerTick` body;
* the `alert(...)` win/lose announcements become the counters
  `winAlerts`/`loseAlerts` (incremented whenever the corresponding
  announcement is issued), so that "the win/expiry signal fires" is
  observable in the final state;
* `revertTaken` is a ghost counter counting executions of the
  same-card revert branch of `handleCardClick` (the branch that calls
  `removeClass("flipped")` and `clicks--`); it instruments which branch
  ran and is touched nowhere else.

Rendering-only effects (text of `#message-area`, stats display, lazy
image `src` loading, CSS grid classes, button disabling) are outside the
model, as are the network fetches.
-/

/-- One card element of the game grid: `data-card-id`, `data-pokemon-id`
and the two CSS classes the engine toggles. -/
structure Card where
  cardId : String
  pokemonId : Nat
  flipped : Bool
  matched : Bool
  deriving DecidableEq, Repr

/-- An outstanding `setTimeout` callback.  `mismatch` is the 1000 ms
flip-back callback of `processMismatch`, `settle` the 200 ms callback of
`resetTurnAfterDelay`, `reveal ts` the 2000 ms conceal callback of
`executePowerUpReveal` closing over the targeted card indices. -/
inductive Callback where
  | mismatch : Callback
  | settle : Callback
  | reveal : List Nat → Callback
  deriving DecidableEq, Repr

/-- The module-level mutable state of `index.js`.  `firstCard` and
`secondCard` hold the index (into `cards`) of the referenced card
element, mirroring the jQuery object references of the source. -/
structure GameState where
  cards : List Card
  firstCard : Option Nat
  secondCard : Option Nat
  lockBoard : Bool
  gameActive : Bool
  clicks : Int
  pairsMatched : Nat
  timeLeft : Int
  numPairs : Nat
  timerRunning : Bool
  powerUpUsedThisGame : Bool
  winAlerts : Nat
  loseAlerts : Nat
  pending : List Callback
  revertTaken : Nat
  deriving DecidableEq, Repr

/-- Helper for `firstCard.addClass("matched")` / `secondCard.addClass("matched")`:
mark the card referenced by an optional index as matched. -/
def setMatchedAt (cards : List Card) : Option Nat → List Card
  | none => cards
  | some k =>
    match cards[k]? with
    | some c => cards.set k { c with matched := true }
    | none => cards

/-- Helper for `firstCard.removeClass("flipped")` (guarded by `if (firstCard)`
in the source): unflip the card referenced by an optional index. -/
def unflipAt (cards : List Card) : Option Nat → List Card
  | none => cards
  | some k =>
    match cards[k]? with
    | some c => cards.set k { c with flipped := false }
    | none => cards

/-- Body of `endGame(isWin)` (lines 460-496).  The three leading guards
return unchanged when the game is already inactive; otherwise the game
is deactivated, the timer interval cleared, the board locked, matched
cards forced to stay flipped, and the win or timeout announcement is
issued (the `alert` scheduled by the source is counted here). -/
def endGame (isWin : Bool) (st : GameState) : GameState :=
  if st.gameActive = false ∧ isWin = false ∧ 0 < st.timeLeft then st
  else if st.gameActive = false ∧ isWin = true then st
  else if st.gameActive = false ∧ isWin = false ∧ st.timeLeft ≤ 0 then st
  else
    let st1 : GameState :=
      { st with
        gameActive := false
        timerRunning := false
        lockBoard := true
        cards := st.cards.map fun c => if c.matched = true then { c with flipped := true } else c }
    if isWin = true then { st1 with winAlerts := st1.winAlerts + 1 }
    else if st1.timeLeft ≤ 0 then { st1 with loseAlerts := st1.loseAlerts + 1 }
    else st1

/-- Body of `processMatch()` (lines 366-377): mark both pending cards
matched, increment `pairsMatched`, and schedule the settle callback
(`resetTurnAfterDelay`). -/
def processMatch (st : GameState) : GameState :=
  { st with
    cards := setMatchedAt (setMatchedAt st.cards st.firstCard) st.secondCard
    pairsMatched := st.pairsMatched + 1
    pending := st.pending ++ [Callback.settle] }

/-- Body of `processMismatch()` (lines 382-389): schedule the 1000 ms
flip-back callback.  Its later execution is `fireMismatch`. -/
def processMismatch (st : GameState) : GameState :=
  { st with pending := st.pending ++ [Callback.mismatch] }

/-- Body of `handleCardClick` (lines 306-351), clicking the card element
at index `i`.  Lazy image loading (lines 317-324) and the stats display
updates are rendering-only and not modelled. -/
def handleCardClick (st : GameState) (i : Nat) : GameState :=
  match st.cards[i]? with
  | none => st
  | some c =>
    if st.gameActive = false ∨ st.lockBoard = true ∨ c.flipped = true ∨ c.matched = true then
      st
    else
      let st1 : GameState :=
        { st with
          clicks := st.clicks + 1
          cards := st.cards.set i { c with flipped := true } }
      match st.firstCard with
      | none => { st1 with firstCard := some i }
      | some j =>
        if (st1.cards[j]?).map Card.cardId = some c.cardId then
          { st1 with
            cards := st1.cards.set i { c with flipped := false }
            clicks := st1.clicks - 1
            revertTaken := st1.revertTaken + 1 }
        else
          let st2 : GameState := { st1 with secondCard := some i, lockBoard := true }
          if (st2.cards[j]?).map Card.pokemonId = some c.pokemonId then processMatch st2
          else processMismatch st2

/-- First half of the settle callback body scheduled by
`resetTurnAfterDelay` (lines 395-399): clear the pending pair and unlock
the board. -/
def settleClearTurn (st : GameState) : GameState :=
  { st with firstCard := none, secondCard := none, lockBoard := false }

/-- Second half of the settle callback body (lines 401-404): the win
check, calling `endGame(true)` when all pairs are matched. -/
def settleWinCheck (st : GameState) : GameState :=
  if st.gameActive = true ∧ st.pairsMatched = st.numPairs then endGame true st else st

/-- Whole body of the settle callback scheduled by `resetTurnAfterDelay`
(lines 394-406). -/
def fireSettle (st : GameState) : GameState :=
  settleWinCheck (settleClearTurn st)

/-- Body of the 1000 ms callback scheduled by `processMismatch` (lines
384-388): unflip the (current!) `firstCard` and `secondCard` references
when non-null, then schedule the settle callback. -/
def fireMismatch (st : GameState) : GameState :=
  { st with
    cards := unflipAt (unflipAt st.cards st.firstCard) st.secondCard
    pending := st.pending ++ [Callback.settle] }

/-- Body of the `setInterval` tick of `startTimer` (lines 430-438):
decrement `timeLeft`, then end the game on timeout while active. -/
def timerTick (st : GameState) : GameState :=
  let st1 : GameState := { st with timeLeft := st.timeLeft - 1 }
  if st1.timeLeft ≤ 0 ∧ st1.gameActive = true then endGame false st1 else st1

/-- Indices of the card elements matched by `$(".card:not(.matched)")`,
in DOM order. -/
def unmatchedIndices (cards : List Card) : List Nat :=
  (cards.enum.filter fun p => p.2.matched = false).map fun p => p.1

/-- Body of `executePowerUpReveal(cardsArray)` up to the `setTimeout`
(lines 569-573): flip every targeted card and schedule the 2000 ms
conceal callback over the same targets. -/
def executePowerUpReveal (st : GameState) (targets : List Nat) : GameState :=
  { st with
    cards := targets.foldl (fun cs k =>
      match cs[k]? with
      | some c => cs.set k { c with flipped := true }
      | none => cs) st.cards
    pending := st.pending ++ [Callback.reveal targets] }

/-- Body of the power-up button click handler (lines 524-563), in the
case where every targeted image is already loaded (`imagesToLoad == 0`),
so `executePowerUpReveal` runs synchronously on the unmatched cards. -/
def activatePowerUp (st : GameState) : GameState :=
  if st.gameActive = false ∨ st.lockBoard = true ∨ st.powerUpUsedThisGame = true then st
  else
    executePowerUpReveal
      { st with powerUpUsedThisGame := true, lockBoard := true }
      (unmatchedIndices st.cards)

/-- One step of the conceal loop inside the 2000 ms callback of
`executePowerUpReveal` (lines 577-588): keep the card whose
`data-card-id` equals the pending first card id, keep matched cards,
unflip the rest.  `first` is the `data-card-id` of the current
`firstCard` reference, if any. -/
def concealStep (first : Option String) (cs : List Card) (k : Nat) : List Card :=
  match cs[k]? with
  | none => cs
  | some c =>
    if first = some c.cardId then cs
    else if c.matched = true then cs
    else cs.set k { c with flipped := false }

/-- Body of the 2000 ms callback of `executePowerUpReveal` (lines
576-592): conceal the targeted cards (except matched cards and the
pending first selection) and recompute the lock as
`firstCard && !secondCard`. -/
def fireRevealEnd (st : GameState) (targets : List Nat) : GameState :=
  let first : Option String := (st.firstCard.bind fun j => st.cards[j]?).map Card.cardId
  { st with
    cards := targets.foldl (concealStep first) st.cards
    lockBoard := st.firstCard.isSome && st.secondCard.isNone }

/-- Dispatch of a queued `setTimeout` callback to its body. -/
def fireCallback (st : GameState) : Callback → GameState
  | Callback.mismatch => fireMismatch st
  | Callback.settle => fireSettle st
  | Callback.reveal ts => fireRevealEnd st ts

/-- Fire the `k`-th outstanding `setTimeout` callback: it is removed from
the queue and its body runs (possibly scheduling new callbacks). -/
def firePending (st : GameState) (k : Nat) : GameState :=
  match st.pending[k]? with
  | none => st
  | some cb => fireCallback { st with pending := st.pending.eraseIdx k } cb

/-- One catalog item as consumed by `initializeGame` (a Pokémon with its
numeric id, name and artwork URL). -/
structure Item where
  id : Nat
  name : String
  imageUrl : String
  deriving DecidableEq, Repr

/-- The card-data construction of `initializeGame` (lines 230-241): two
cards per selected item with card ids suffixed `-a` and `-b`; items with
a falsy (empty) `imageUrl` or `name` are skipped. -/
def buildCardsData (selected : List Item) : List Card :=
  selected.foldr (fun p acc =>
    if p.imageUrl = "" ∨ p.name = "" then acc
    else
      { cardId := Nat.repr p.id ++ "-a", pokemonId := p.id, flipped := false, matched := false } ::
      { cardId := Nat.repr p.id ++ "-b", pokemonId := p.id, flipped := false, matched := false } ::
      acc) []

/-- The state-reset portion of `initializeGame` (lines 181-296) on its
success path, with the freshly built and shuffled deck `newCards` and
the difficulty-resolved `pairs`/`time`.  Note that only the timer
interval is cleared (line 195); the `pending` `setTimeout` queue is left
untouched, exactly as in the source. -/
def resetGame (st : GameState) (newCards : List Card) (pairs : Nat) (time : Int) : GameState :=
  { st with
    gameActive := true
    lockBoard := false
    powerUpUsedThisGame := false
    clicks := 0
    pairsMatched := 0
    firstCard := none
    secondCard := none
    timerRunning := true
    cards := newCards
    numPairs := pairs
    timeLeft := time }

/-!
Auxiliary development: injectivity of `Nat.repr`, needed because the
deck builder forms card ids as `` `${pokemon.id}-a` ``/`` `${pokemon.id}-b` ``.
`Nat.toDigits` is fuel-based; `digitsRec` is the fuel-free equivalent.
-/

/-- Fuel-free version of `Nat.toDigits 10`. -/
def digitsRec (n : Nat) : List Char :=
  if h : n / 10 = 0 then [Nat.digitChar (n % 10)]
  else digitsRec (n / 10) ++ [Nat.digitChar (n % 10)]
  termination_by n
  decreasing_by omega

theorem digitsRec_ne_nil (n : Nat) : digitsRec n ≠ [] := by
  rw [digitsRec]
  split <;> simp

theorem digitsRec_eq_pos {n : Nat} (h : n / 10 = 0) :
    digitsRec n = [Nat.digitChar (n % 10)] := by
  rw [digitsRec, dif_pos h]

theorem digitsRec_eq_neg {n : Nat} (h : ¬n / 10 = 0) :
    digitsRec n = digitsRec (n / 10) ++ [Nat.digitChar (n % 10)] := by
  rw [digitsRec, dif_neg h]

theorem toDigitsCore_eq_digitsRec (f : Nat) :
    ∀ n ds, n < f → Nat.toDigitsCore 10 f n ds = digitsRec n ++ ds := by
  induction f with
  | zero => intro n ds h; omega
  | succ f ih =>
    intro n ds h
    rw [Nat.toDigitsCore]
    by_cases h0 : n / 10 = 0
    · simp [h0, digitsRec_eq_pos h0]
    · have hlt : n / 10 < f := by omega
      simp [h0, digitsRec_eq_neg h0, ih (n / 10) _ hlt]

theorem toDigits_eq_digitsRec (n : Nat) : Nat.toDigits 10 n = digitsRec n := by
  have h := toDigitsCore_eq_digitsRec (n + 1) n [] (by omega)
  rw [Nat.toDigits, h, List.append_nil]

theorem digitChar_inj_lt (a b : Nat) (ha : a < 10) (hb : b < 10)
    (h : Nat.digitChar a = Nat.digitChar b) : a = b := by
  interval_cases a <;> interval_cases b <;> simp_all [Nat.digitChar]

theorem digitsRec_inj : ∀ m n : Nat, digitsRec m = digitsRec n → m = n := by
  intro m
  induction m using Nat.strong_induction_on with
  | _ m ih =>
    intro n h
    by_cases hm : m / 10 = 0 <;> by_cases hn : n / 10 = 0
    · rw [digitsRec_eq_pos hm, digitsRec_eq_pos hn] at h
      have hd : Nat.digitChar (m % 10) = Nat.digitChar (n % 10) := by
        simpa using h
      have := digitChar_inj_lt (m % 10) (n % 10) (Nat.mod_lt _ (by omega))
        (Nat.mod_lt _ (by omega)) hd
      omega
    · rw [digitsRec_eq_pos hm, digitsRec_eq_neg hn] at h
      have hl := congrArg List.length h
      simp only [List.length_append, List.length_singleton] at hl
      have hnil : digitsRec (n / 10) = [] := List.length_eq_zero.mp (by omega)
      exact absurd hnil (digitsRec_ne_nil _)
    · rw [digitsRec_eq_neg hm, digitsRec_eq_pos hn] at h
      have hl := congrArg List.length h
      simp only [List.length_append, List.length_singleton] at hl
      have hnil : digitsRec (m / 10) = [] := List.length_eq_zero.mp (by omega)
      exact absurd hnil (digitsRec_ne_nil _)
    · rw [digitsRec_eq_neg hm, digitsRec_eq_neg hn] at h
      obtain ⟨h1, h2⟩ := List.append_inj' h (by simp)
      have hq := ih (m / 10) (by omega) (n / 10) h1
      have hd : Nat.digitChar (m % 10) = Nat.digitChar (n % 10) := by
        simpa using h2
      have hr := digitChar_inj_lt (m % 10) (n % 10) (Nat.mod_lt _ (by omega))
        (Nat.mod_lt _ (by omega)) hd
      omega

theorem natRepr_inj {m n : Nat} (h : Nat.repr m = Nat.repr n) : m = n := by
  unfold Nat.repr at h
  rw [toDigits_eq_digitsRec, toDigits_eq_digitsRec] at h
  exact digitsRec_inj m n (List.asString_inj.mp h)

/-- Card-id strings `repr x ++ sfx` with a two-character suffix from
the deck builder are injective in the pair (numeric id, suffix). -/
theorem cardIdString_inj (x y : Nat) (s t : String)
    (hs : s = "-a" ∨ s = "-b") (ht : t = "-a" ∨ t = "-b")
    (h : Nat.repr x ++ s = Nat.repr y ++ t) : x = y ∧ s = t := by
  have hd := congrArg String.data h
  rw [String.data_append, String.data_append] at hd
  rcases hs with hs | hs <;> rcases ht with ht | ht <;> subst hs <;> subst ht
  · obtain ⟨h1, h2⟩ := List.append_inj' hd (by decide)
    exact ⟨natRepr_inj (String.ext h1), rfl⟩
  · obtain ⟨h1, h2⟩ := List.append_inj' hd (by decide)
    exact absurd h2 (by decide)
  · obtain ⟨h1, h2⟩ := List.append_inj' hd (by decide)
    exact absurd h2 (by decide)
  · obtain ⟨h1, h2⟩ := List.append_inj' hd (by decide)
    exact ⟨natRepr_inj (String.ext h1), rfl⟩

theorem buildCardsData_cons (p : Item) (rest : List Item) :
    buildCardsData (p :: rest) =
      if p.imageUrl = "" ∨ p.name = "" then buildCardsData rest
      else
        { cardId := Nat.repr p.id ++ "-a", pokemonId := p.id,
          flipped := false, matched := false } ::
        { cardId := Nat.repr p.id ++ "-b", pokemonId := p.id,
          flipped := false, matched := false } ::
        buildCardsData rest := rfl

theorem buildCardsData_length_even (sel : List Item) :
    (buildCardsData sel).length % 2 = 0 := by
  induction sel with
  | nil => rfl
  | cons p rest ih =>
    rw [buildCardsData_cons]
    split
    · exact ih
    · simp only [List.length_cons]
      omega

theorem mem_pokemonId_buildCardsData {sel : List Item} {pid : Nat}
    (h : pid ∈ (buildCardsData sel).map Card.pokemonId) : pid ∈ sel.map Item.id := by
  induction sel with
  | nil => simp [buildCardsData] at h
  | cons p rest ih =>
    rw [buildCardsData_cons] at h
    split at h
    · exact List.mem_cons_of_mem _ (ih h)
    · simp only [List.map_cons, List.mem_cons] at h ⊢
      rcases h with h | h | h
      · exact Or.inl h
      · exact Or.inl h
      · exact Or.inr (ih h)

theorem count_pokemonId_buildCardsData (sel : List Item) (pid : Nat)
    (hids : (sel.map Item.id).Nodup) (hmem : pid ∈ (buildCardsData sel).map Card.pokemonId) :
    List.count pid ((buildCardsData sel).map Card.pokemonId) = 2 := by
  induction sel with
  | nil => simp [buildCardsData] at hmem
  | cons p rest ih =>
    simp only [List.map_cons, List.nodup_cons] at hids
    rw [buildCardsData_cons] at hmem ⊢
    by_cases hskip : p.imageUrl = "" ∨ p.name = ""
    · rw [if_pos hskip] at hmem ⊢
      exact ih hids.2 hmem
    · rw [if_neg hskip] at hmem ⊢
      simp only [List.map_cons, List.count_cons]
      by_cases hp : pid = p.id
      · have hnot : pid ∉ (buildCardsData rest).map Card.pokemonId := by
          intro hc
          exact hids.1 (hp ▸ mem_pokemonId_buildCardsData hc)
        rw [List.count_eq_zero.mpr hnot]
        simp [hp]
      · have hmem2 : pid ∈ (buildCardsData rest).map Card.pokemonId := by
          simp only [List.map_cons, List.mem_cons] at hmem
          rcases hmem with h | h | h
          · exact absurd h hp
          · exact absurd h hp
          · exact h
        rw [ih hids.2 hmem2]
        have hp2 : ¬p.id = pid := fun h => hp h.symm
        simp [hp2]

theorem mem_cardId_buildCardsData {sel : List Item} {s : String}
    (h : s ∈ (buildCardsData sel).map Card.cardId) :
    ∃ p ∈ sel, s = Nat.repr p.id ++ "-a" ∨ s = Nat.repr p.id ++ "-b" := by
  induction sel with
  | nil => simp [buildCardsData] at h
  | cons p rest ih =>
    rw [buildCardsData_cons] at h
    split at h
    · obtain ⟨q, hq, hs⟩ := ih h
      exact ⟨q, List.mem_cons_of_mem _ hq, hs⟩
    · simp only [List.map_cons, List.mem_cons] at h
      rcases h with h | h | h
      · exact ⟨p, List.mem_cons_self _ _, Or.inl h⟩
      · exact ⟨p, List.mem_cons_self _ _, Or.inr h⟩
      · obtain ⟨q, hq, hs⟩ := ih h
        exact ⟨q, List.mem_cons_of_mem _ hq, hs⟩

theorem nodup_cardId_buildCardsData (sel : List Item)
    (hids : (sel.map Item.id).Nodup) : ((buildCardsData sel).map Card.cardId).Nodup := by
  induction sel with
  | nil => simp [buildCardsData]
  | cons p rest ih =>
    simp only [List.map_cons, List.nodup_cons] at hids
    rw [buildCardsData_cons]
    split
    · exact ih hids.2
    · simp only [List.map_cons, List.nodup_cons]
      refine ⟨?_, ?_, ih hids.2⟩
      · simp only [List.mem_cons]
        rintro (h | h)
        · exact absurd (cardIdString_inj p.id p.id "-a" "-b" (Or.inl rfl) (Or.inr rfl) h).2
            (by decide)
        · obtain ⟨q, hq, hs⟩ := mem_cardId_buildCardsData h
          rcases hs with hs | hs
          · have := (cardIdString_inj p.id q.id "-a" "-a" (Or.inl rfl) (Or.inl rfl) hs).1
            exact hids.1 (this ▸ List.mem_map_of_mem Item.id hq)
          · have := (cardIdString_inj p.id q.id "-a" "-b" (Or.inl rfl) (Or.inr rfl) hs).1
            exact hids.1 (this ▸ List.mem_map_of_mem Item.id hq)
      · intro h
        obtain ⟨q, hq, hs⟩ := mem_cardId_buildCardsData h
        rcases hs with hs | hs
        · have := (cardIdString_inj p.id q.id "-b" "-a" (Or.inr rfl) (Or.inl rfl) hs).1
          exact hids.1 (this ▸ List.mem_map_of_mem Item.id hq)
        · have := (cardIdString_inj p.id q.id "-b" "-b" (Or.inr rfl) (Or.inr rfl) hs).1
          exact hids.1 (this ▸ List.mem_map_of_mem Item.id hq)

/-!
Shared helper lemmas about the engine operations.
-/

/-- Calling `endGame` when the game is already inactive is the identity:
the three leading guards (lines 462-464) jointly cover every inactive
case. -/
theorem endGame_inactive (b : Bool) (st : GameState) (h : st.gameActive = false) :
    endGame b st = st := by
  unfold endGame
  cases b
  · by_cases ht : 0 < st.timeLeft
    · rw [if_pos ⟨h, rfl, ht⟩]
    · rw [if_neg (fun hcon => ht hcon.2.2),
        if_neg (fun hcon => by simpa using hcon.2),
        if_pos ⟨h, rfl, by omega⟩]
  · rw [if_neg (fun hcon => by simpa using hcon.2.1), if_pos ⟨h, rfl⟩]

/-- Clicking any card while the game is inactive is rejected by the
first guard of `handleCardClick` (line 313). -/
theorem handleCardClick_inactive (st : GameState) (i : Nat) (h : st.gameActive = false) :
    handleCardClick st i = st := by
  unfold handleCardClick
  cases hc : st.cards[i]? with
  | none => rfl
  | some c => simp [h]

/-- First selection of a turn: clicking a face-down, unmatched card with
no pending first card counts the click, flips the card and records it. -/
theorem click_first (st : GameState) (i : Nat) (c : Card)
    (hc : st.cards[i]? = some c) (hA : st.gameActive = true) (hL : st.lockBoard = false)
    (hf : c.flipped = false) (hm : c.matched = false) (hF : st.firstCard = none) :
    handleCardClick st i =
      { st with
        clicks := st.clicks + 1
        cards := st.cards.set i { c with flipped := true }
        firstCard := some i } := by
  unfold handleCardClick
  rw [hc]
  simp [hA, hL, hf, hm, hF]

/-- Computation of `endGame(true)` on an active game: deactivate, stop
the timer, lock the board, keep matched cards flipped, announce the
win. -/
theorem endGame_true_active (st : GameState) (h : st.gameActive = true) :
    endGame true st =
      { st with
        gameActive := false
        timerRunning := false
        lockBoard := true
        cards := st.cards.map fun c => if c.matched = true then { c with flipped := true } else c
        winAlerts := st.winAlerts + 1 } := by
  unfold endGame
  rw [if_neg (fun hc => by simp [h] at hc), if_neg (fun hc => by simp [h] at hc),
    if_neg (fun hc => by simp [h] at hc)]
  rfl

/-- Computation of `endGame(false)` on an active game whose time has run
out: deactivate, stop the timer, lock the board, announce the loss. -/
theorem endGame_false_timeout (st : GameState) (h : st.gameActive = true)
    (ht : st.timeLeft ≤ 0) :
    endGame false st =
      { st with
        gameActive := false
        timerRunning := false
        lockBoard := true
        cards := st.cards.map fun c => if c.matched = true then { c with flipped := true } else c
        loseAlerts := st.loseAlerts + 1 } := by
  unfold endGame
  rw [if_neg (fun hc => by simp [h] at hc), if_neg (fun hc => by simp [h] at hc),
    if_neg (fun hc => by simp [h] at hc)]
  simp [ht]

/-- Second selection of a turn, matching case: clicking a fresh card
while card `k` is pending and the `data-pokemon-id`s agree runs
`processMatch` on the locked two-selected state. -/
theorem click_second_match (s : GameState) (j k : Nat) (cj ck : Card)
    (hcj : s.cards[j]? = some cj) (hck : s.cards[k]? = some ck)
    (hA : s.gameActive = true) (hL : s.lockBoard = false)
    (hF : s.firstCard = some k) (hkj : ¬j = k)
    (hfj : cj.flipped = false) (hmj : cj.matched = false)
    (hid : ¬ck.cardId = cj.cardId) (hpk : ck.pokemonId = cj.pokemonId) :
    handleCardClick s j =
      processMatch
        { s with
          clicks := s.clicks + 1
          cards := s.cards.set j { cj with flipped := true }
          secondCard := some j
          lockBoard := true } := by
  have hlook : (s.cards.set j { cj with flipped := true })[k]? = some ck := by
    rw [List.getElem?_set_ne hkj, hck]
  simp only [hmj] at hlook
  unfold handleCardClick
  rw [hcj]
  simp [hA, hL, hfj, hmj, hF, hlook, hid, hpk]

/-- Second selection of a turn, mismatching case: clicking a fresh card
while card `k` is pending and the `data-pokemon-id`s differ runs
`processMismatch` on the locked two-selected state. -/
theorem click_second_mismatch (s : GameState) (j k : Nat) (cj ck : Card)
    (hcj : s.cards[j]? = some cj) (hck : s.cards[k]? = some ck)
    (hA : s.gameActive = true) (hL : s.lockBoard = false)
    (hF : s.firstCard = some k) (hkj : ¬j = k)
    (hfj : cj.flipped = false) (hmj : cj.matched = false)
    (hid : ¬ck.cardId = cj.cardId) (hpk : ¬ck.pokemonId = cj.pokemonId) :
    handleCardClick s j =
      processMismatch
        { s with
          clicks := s.clicks + 1
          cards := s.cards.set j { cj with flipped := true }
          secondCard := some j
          lockBoard := true } := by
  have hlook : (s.cards.set j { cj with flipped := true })[k]? = some ck := by
    rw [List.getElem?_set_ne hkj, hck]
  simp only [hmj] at hlook
  unfold handleCardClick
  rw [hcj]
  simp [hA, hL, hfj, hmj, hF, hlook, hid, hpk]

/-- C1: for every game state in which two distinct face-down unmatched
tiles with equal `itemId` (`data-pokemon-id`) are selected in sequence
as first and second selection, both tiles become Matched, `pairsMatched`
increases by exactly 1, the settle-delay callback unlocks the board, and
the win signal (`endGame(true)`, counted by `winAlerts`) fires iff the
resulting `pairsMatched` equals the game's pair count, and fires exactly
once (a second `endGame(true)` is a no-op). -/
theorem claim_C1 (st : GameState) (i j : Nat) (ci cj : Card)
    (hij : ¬i = j)
    (hci : st.cards[i]? = some ci) (hcj : st.cards[j]? = some cj)
    (hA : st.gameActive = true) (hL : st.lockBoard = false) (hF : st.firstCard = none)
    (hfi : ci.flipped = false) (hmi : ci.matched = false)
    (hfj : cj.flipped = false) (hmj : cj.matched = false)
    (hid : ¬ci.cardId = cj.cardId) (hpk : ci.pokemonId = cj.pokemonId) :
    ((handleCardClick (handleCardClick st i) j).cards[i]?).map Card.matched = some true ∧
    ((handleCardClick (handleCardClick st i) j).cards[j]?).map Card.matched = some true ∧
    (handleCardClick (handleCardClick st i) j).pairsMatched = st.pairsMatched + 1 ∧
    (handleCardClick (handleCardClick st i) j).clicks = st.clicks + 2 ∧
    (handleCardClick (handleCardClick st i) j).lockBoard = true ∧
    (handleCardClick (handleCardClick st i) j).pending = st.pending ++ [Callback.settle] ∧
    (settleClearTurn (handleCardClick (handleCardClick st i) j)).lockBoard = false ∧
    (st.pairsMatched + 1 = st.numPairs →
      (fireSettle (handleCardClick (handleCardClick st i) j)).winAlerts = st.winAlerts + 1 ∧
      endGame true (fireSettle (handleCardClick (handleCardClick st i) j)) =
        fireSettle (handleCardClick (handleCardClick st i) j)) ∧
    (¬st.pairsMatched + 1 = st.numPairs →
      (fireSettle (handleCardClick (handleCardClick st i) j)).winAlerts = st.winAlerts ∧
      (fireSettle (handleCardClick (handleCardClick st i) j)).lockBoard = false ∧
      (fireSettle (handleCardClick (handleCardClick st i) j)).gameActive = true) := by
  obtain ⟨hilen, -⟩ := List.getElem?_eq_some.mp hci
  obtain ⟨hjlen, -⟩ := List.getElem?_eq_some.mp hcj
  have hcjA : (st.cards.set i { ci with flipped := true })[j]? = some cj := by
    rw [List.getElem?_set_ne hij, hcj]
  have hciA : (st.cards.set i { ci with flipped := true })[i]? =
      some { ci with flipped := true } :=
    List.getElem?_set_self hilen
  have e1 : ((st.cards.set i { ci with flipped := true }).set j
      { cj with flipped := true })[i]? = some { ci with flipped := true } := by
    rw [List.getElem?_set_ne (fun h => hij h.symm), hciA]
  have e2 : (((st.cards.set i { ci with flipped := true }).set j
      { cj with flipped := true }).set i { ci with flipped := true, matched := true })[j]? =
      some { cj with flipped := true } := by
    rw [List.getElem?_set_ne hij, List.getElem?_set_self (by simpa using hjlen)]
  have hmain : handleCardClick (handleCardClick st i) j =
      { st with
        clicks := st.clicks + 1 + 1
        cards := (((st.cards.set i { ci with flipped := true }).set j
          { cj with flipped := true }).set i { ci with flipped := true, matched := true }).set j
          { cj with flipped := true, matched := true }
        firstCard := some i
        secondCard := some j
        lockBoard := true
        pairsMatched := st.pairsMatched + 1
        pending := st.pending ++ [Callback.settle] } := by
    rw [click_first st i ci hci hA hL hfi hmi hF,
      click_second_match
        { st with
          clicks := st.clicks + 1
          cards := st.cards.set i { ci with flipped := true }
          firstCard := some i }
        j i cj { ci with flipped := true } hcjA hciA hA hL rfl
        (fun h => hij h.symm) hfj hmj hid hpk]
    simp [processMatch, setMatchedAt, e1, e2]
  have e3 : ((((st.cards.set i { ci with flipped := true }).set j
      { cj with flipped := true }).set i { ci with flipped := true, matched := true }).set j
      { cj with flipped := true, matched := true })[i]? =
      some { ci with flipped := true, matched := true } := by
    rw [List.getElem?_set_ne (fun h => hij h.symm),
      List.getElem?_set_self (by simpa using hilen)]
  have e4 : ((((st.cards.set i { ci with flipped := true }).set j
      { cj with flipped := true }).set i { ci with flipped := true, matched := true }).set j
      { cj with flipped := true, matched := true })[j]? =
      some { cj with flipped := true, matched := true } := by
    rw [List.getElem?_set_self (by simpa using hjlen)]
  refine ⟨?_, ?_, ?_, ?_, ?_, ?_, ?_, ?_, ?_⟩
  · rw [hmain]; simp [e3]
  · rw [hmain]; simp [e4]
  · rw [hmain]
  · rw [hmain]
    show st.clicks + 1 + 1 = st.clicks + 2
    omega
  · rw [hmain]
  · rw [hmain]
  · rw [hmain]; rfl
  · intro hw
    rw [hmain]
    have hsettle : fireSettle
        { st with
          clicks := st.clicks + 1 + 1
          cards := (((st.cards.set i { ci with flipped := true }).set j
            { cj with flipped := true }).set i { ci with flipped := true, matched := true }).set j
            { cj with flipped := true, matched := true }
          firstCard := some i
          secondCard := some j
          lockBoard := true
          pairsMatched := st.pairsMatched + 1
          pending := st.pending ++ [Callback.settle] } =
        endGame true (settleClearTurn
        { st with
          clicks := st.clicks + 1 + 1
          cards := (((st.cards.set i { ci with flipped := true }).set j
            { cj with flipped := true }).set i { ci with flipped := true, matched := true }).set j
            { cj with flipped := true, matched := true }
          firstCard := some i
          secondCard := some j
          lockBoard := true
          pairsMatched := st.pairsMatched + 1
          pending := st.pending ++ [Callback.settle] }) := by
      simp [fireSettle, settleWinCheck, settleClearTurn, hA, hw]
    rw [hsettle, endGame_true_active]
    · exact ⟨rfl, endGame_inactive true _ rfl⟩
    · exact hA
  · intro hw
    rw [hmain]
    have hsettle : fireSettle
        { st with
          clicks := st.clicks + 1 + 1
          cards := (((st.cards.set i { ci with flipped := true }).set j
            { cj with flipped := true }).set i { ci with flipped := true, matched := true }).set j
            { cj with flipped := true, matched := true }
          firstCard := some i
          secondCard := some j
          lockBoard := true
          pairsMatched := st.pairsMatched + 1
          pending := st.pending ++ [Callback.settle] } =
        settleClearTurn
        { st with
          clicks := st.clicks + 1 + 1
          cards := (((st.cards.set i { ci with flipped := true }).set j
            { cj with flipped := true }).set i { ci with flipped := true, matched := true }).set j
            { cj with flipped := true, matched := true }
          firstCard := some i
          secondCard := some j
          lockBoard := true
          pairsMatched := st.pairsMatched + 1
          pending := st.pending ++ [Callback.settle] } := by
      simp [fireSettle, settleWinCheck, settleClearTurn, hw]
    rw [hsettle]
    exact ⟨rfl, rfl, hA⟩

/-- Demo board shared by the concrete witness instantiations: a matching
pair (pokemon 7) plus one extra card, one pair required to win. -/
def demoMatchState : GameState :=
  { cards := [{ cardId := "7-a", pokemonId := 7, flipped := false, matched := false },
              { cardId := "7-b", pokemonId := 7, flipped := false, matched := false },
              { cardId := "9-a", pokemonId := 9, flipped := false, matched := false }]
    firstCard := none
    secondCard := none
    lockBoard := false
    gameActive := true
    clicks := 0
    pairsMatched := 0
    timeLeft := 60
    numPairs := 1
    timerRunning := true
    powerUpUsedThisGame := false
    winAlerts := 0
    loseAlerts := 0
    pending := []
    revertTaken := 0 }

/-- Witness for C1 at a concrete winning match. -/
theorem claim_C1_witness :
    ((handleCardClick (handleCardClick demoMatchState 0) 1).cards[0]?).map Card.matched =
      some true ∧
    ((handleCardClick (handleCardClick demoMatchState 0) 1).cards[1]?).map Card.matched =
      some true ∧
    (handleCardClick (handleCardClick demoMatchState 0) 1).pairsMatched =
      demoMatchState.pairsMatched + 1 ∧
    (fireSettle (handleCardClick (handleCardClick demoMatchState 0) 1)).winAlerts =
      demoMatchState.winAlerts + 1 := by
  have h := claim_C1 demoMatchState 0 1
    { cardId := "7-a", pokemonId := 7, flipped := false, matched := false }
    { cardId := "7-b", pokemonId := 7, flipped := false, matched := false }
    (by decide) rfl rfl rfl rfl rfl rfl rfl rfl rfl (by decide) rfl
  exact ⟨h.1, h.2.1, h.2.2.1, (h.2.2.2.2.2.2.2.1 rfl).1⟩

/-- C2: for every game state in which two face-down unmatched tiles with
differing `itemId` are selected in sequence as first and second
selection, the board locks and the 1000 ms flip-back callback is
scheduled; after the mismatch delay sequence (flip-back callback then
settle callback) both tiles are FaceDown (not flipped, not matched),
`pairsMatched` is unchanged and `clicks` has been incremented by exactly
2. -/
theorem claim_C2 (st : GameState) (i j : Nat) (ci cj : Card)
    (hij : ¬i = j)
    (hci : st.cards[i]? = some ci) (hcj : st.cards[j]? = some cj)
    (hA : st.gameActive = true) (hL : st.lockBoard = false) (hF : st.firstCard = none)
    (hfi : ci.flipped = false) (hmi : ci.matched = false)
    (hfj : cj.flipped = false) (hmj : cj.matched = false)
    (hid : ¬ci.cardId = cj.cardId) (hpk : ¬ci.pokemonId = cj.pokemonId) :
    (handleCardClick (handleCardClick st i) j).lockBoard = true ∧
    (handleCardClick (handleCardClick st i) j).pending = st.pending ++ [Callback.mismatch] ∧
    (fireSettle (fireMismatch (handleCardClick (handleCardClick st i) j))).clicks =
      st.clicks + 2 ∧
    (fireSettle (fireMismatch (handleCardClick (handleCardClick st i) j))).pairsMatched =
      st.pairsMatched ∧
    ((fireSettle (fireMismatch (handleCardClick (handleCardClick st i) j))).cards[i]?).map
      Card.flipped = some false ∧
    ((fireSettle (fireMismatch (handleCardClick (handleCardClick st i) j))).cards[j]?).map
      Card.flipped = some false ∧
    ((fireSettle (fireMismatch (handleCardClick (handleCardClick st i) j))).cards[i]?).map
      Card.matched = some false ∧
    ((fireSettle (fireMismatch (handleCardClick (handleCardClick st i) j))).cards[j]?).map
      Card.matched = some false := by
  obtain ⟨hilen, -⟩ := List.getElem?_eq_some.mp hci
  obtain ⟨hjlen, -⟩ := List.getElem?_eq_some.mp hcj
  have hcjA : (st.cards.set i { ci with flipped := true })[j]? = some cj := by
    rw [List.getElem?_set_ne hij, hcj]
  have hciA : (st.cards.set i { ci with flipped := true })[i]? =
      some { ci with flipped := true } :=
    List.getElem?_set_self hilen
  have f1 : ((st.cards.set i { ci with flipped := true }).set j
      { cj with flipped := true })[i]? = some { ci with flipped := true } := by
    rw [List.getElem?_set_ne (fun h => hij h.symm), hciA]
  have f2 : (((st.cards.set i { ci with flipped := true }).set j
      { cj with flipped := true }).set i { ci with flipped := false })[j]? =
      some { cj with flipped := true } := by
    rw [List.getElem?_set_ne hij, List.getElem?_set_self (by simpa using hjlen)]
  have hmain : handleCardClick (handleCardClick st i) j =
      { st with
        clicks := st.clicks + 1 + 1
        cards := (st.cards.set i { ci with flipped := true }).set j { cj with flipped := true }
        firstCard := some i
        secondCard := some j
        lockBoard := true
        pending := st.pending ++ [Callback.mismatch] } := by
    rw [click_first st i ci hci hA hL hfi hmi hF,
      click_second_mismatch
        { st with
          clicks := st.clicks + 1
          cards := st.cards.set i { ci with flipped := true }
          firstCard := some i }
        j i cj { ci with flipped := true } hcjA hciA hA hL rfl
        (fun h => hij h.symm) hfj hmj hid hpk]
    simp [processMismatch]
  have hmain2 : fireMismatch (handleCardClick (handleCardClick st i) j) =
      { st with
        clicks := st.clicks + 1 + 1
        cards := (((st.cards.set i { ci with flipped := true }).set j
          { cj with flipped := true }).set i { ci with flipped := false }).set j
          { cj with flipped := false }
        firstCard := some i
        secondCard := some j
        lockBoard := true
        pending := st.pending ++ [Callback.mismatch] ++ [Callback.settle] } := by
    rw [hmain]
    simp [fireMismatch, unflipAt, f1, f2]
  have hij2 : ¬j = i := fun h => hij h.symm
  refine ⟨by rw [hmain], by rw [hmain], ?_, ?_, ?_, ?_, ?_, ?_⟩
  all_goals rw [hmain2]
  all_goals by_cases hwin : st.pairsMatched = st.numPairs
  all_goals simp [fireSettle, settleWinCheck, settleClearTurn, endGame_true_active, hA, hwin,
    List.getElem?_map, List.getElem?_set, List.length_set, hilen, hjlen, hij, hij2, hmi, hmj]
  all_goals omega

/-- Witness for C2 at a concrete mismatch (pokemon 7 vs pokemon 9). -/
theorem claim_C2_witness :
    (handleCardClick (handleCardClick demoMatchState 0) 2).lockBoard = true ∧
    (fireSettle (fireMismatch (handleCardClick (handleCardClick demoMatchState 0) 2))).clicks =
      demoMatchState.clicks + 2 ∧
    (fireSettle (fireMismatch
      (handleCardClick (handleCardClick demoMatchState 0) 2))).pairsMatched =
      demoMatchState.pairsMatched ∧
    ((fireSettle (fireMismatch
      (handleCardClick (handleCardClick demoMatchState 0) 2))).cards[0]?).map Card.flipped =
      some false ∧
    ((fireSettle (fireMismatch
      (handleCardClick (handleCardClick demoMatchState 0) 2))).cards[2]?).map Card.flipped =
      some false := by
  have h := claim_C2 demoMatchState 0 2
    { cardId := "7-a", pokemonId := 7, flipped := false, matched := false }
    { cardId := "9-a", pokemonId := 9, flipped := false, matched := false }
    (by decide) rfl rfl rfl rfl rfl rfl rfl rfl rfl (by decide) (by decide)
  exact ⟨h.1, h.2.2.1, h.2.2.2.1, h.2.2.2.2.1, h.2.2.2.2.2.1⟩

/-- Counterexample to C3 as stated: on the demo board (clicks start at
0), selecting tile 0 and then selecting the same tile again nets one
click, not zero, and the tile ends FaceUp, not FaceDown as the spec's
scenario expects: the second selection is rejected by the already-FaceUp
guard, so the first selection's click and flip survive. -/
theorem claim_C3_counterexample :
    demoMatchState.clicks = 0 ∧
    (handleCardClick (handleCardClick demoMatchState 0) 0).clicks = 1 ∧
    ((handleCardClick (handleCardClick demoMatchState 0) 0).cards[0]?).map Card.flipped =
      some true := by decide

/-- C3 amended: in an active, unlocked state with no pending selection,
after selecting a face-down unmatched tile, selecting the same tileId
again is a no-op (rejected by the already-FaceUp guard with no state
change), so the re-click nets zero change to clicks while the pair of
selections nets exactly the first selection's click; the tile is FaceUp
exactly once and no match evaluation runs (no second selection, no
lock, no callback scheduled, `pairsMatched` unchanged). -/
theorem claim_C3_amended (st : GameState) (i : Nat) (c : Card)
    (hc : st.cards[i]? = some c) (hA : st.gameActive = true) (hL : st.lockBoard = false)
    (hf : c.flipped = false) (hm : c.matched = false) (hF : st.firstCard = none) :
    handleCardClick (handleCardClick st i) i = handleCardClick st i ∧
    (handleCardClick st i).clicks = st.clicks + 1 ∧
    ((handleCardClick st i).cards[i]?).map Card.flipped = some true ∧
    (handleCardClick st i).firstCard = some i ∧
    (handleCardClick st i).secondCard = st.secondCard ∧
    (handleCardClick st i).lockBoard = false ∧
    (handleCardClick st i).pairsMatched = st.pairsMatched ∧
    (handleCardClick st i).pending = st.pending := by
  obtain ⟨hilen, -⟩ := List.getElem?_eq_some.mp hc
  have h1 := click_first st i c hc hA hL hf hm hF
  have hciA : (st.cards.set i { c with flipped := true })[i]? =
      some { c with flipped := true } :=
    List.getElem?_set_self hilen
  refine ⟨?_, ?_, ?_, ?_, ?_, ?_, ?_, ?_⟩
  · rw [h1]
    simp [handleCardClick, hciA]
  · rw [h1]
  · rw [h1]; simp [hciA]
  · rw [h1]
  · rw [h1]
  · rw [h1]; exact hL
  · rw [h1]
  · rw [h1]

/-- Witness for the amended C3 at a concrete tile. -/
theorem claim_C3_witness :
    handleCardClick (handleCardClick demoMatchState 0) 0 = handleCardClick demoMatchState 0 ∧
    (handleCardClick demoMatchState 0).clicks = demoMatchState.clicks + 1 ∧
    ((handleCardClick demoMatchState 0).cards[0]?).map Card.flipped = some true := by
  have h := claim_C3_amended demoMatchState 0
    { cardId := "7-a", pokemonId := 7, flipped := false, matched := false }
    rfl rfl rfl rfl rfl rfl
  exact ⟨h.1, h.2.1, h.2.2.1⟩

/-- Demo ended state (after a game is over): inactive, board locked, a
settle callback from the final turn still outstanding. -/
def demoEndedState : GameState :=
  { demoMatchState with
    gameActive := false
    lockBoard := true
    timerRunning := false
    pending := [Callback.settle] }

/-- C10: once the game session has ended (`gameActive = false`), every
subsequent card click is a no-op on the game state, and this remains
true even after a still-outstanding settle-delay callback from the
final turn clears the board-lock flag: the settle body keeps the game
inactive (its win check requires an active game) while unlocking, and
the click handler checks the inactive-game guard independently of the
lock flag. -/
theorem claim_C10 (st : GameState) (i j : Nat) (h : st.gameActive = false) :
    handleCardClick st i = st ∧
    (fireSettle st).gameActive = false ∧
    (fireSettle st).lockBoard = false ∧
    handleCardClick (fireSettle st) j = fireSettle st := by
  have hset : fireSettle st = settleClearTurn st := by
    simp [fireSettle, settleWinCheck, settleClearTurn, h]
  refine ⟨handleCardClick_inactive st i h, ?_, ?_, ?_⟩
  · rw [hset]; exact h
  · rw [hset]; rfl
  · rw [hset]
    exact handleCardClick_inactive _ j h

/-- Witness for C10 on the demo ended state. -/
theorem claim_C10_witness :
    handleCardClick demoEndedState 0 = demoEndedState ∧
    (fireSettle demoEndedState).lockBoard = false ∧
    handleCardClick (fireSettle demoEndedState) 0 = fireSettle demoEndedState := by
  have h := claim_C10 demoEndedState 0 0 rfl
  exact ⟨h.1, h.2.2.1, h.2.2.2⟩

/-- Reduction of a timer tick that does not reach the timeout branch. -/
theorem timerTick_run (st : GameState) (h : ¬(st.timeLeft - 1 ≤ 0 ∧ st.gameActive = true)) :
    timerTick st = { st with timeLeft := st.timeLeft - 1 } := by
  simp only [timerTick]
  exact if_neg h

/-- Reduction of a timer tick that fires the timeout branch. -/
theorem timerTick_fire (st : GameState) (h : st.timeLeft - 1 ≤ 0) (hA : st.gameActive = true) :
    timerTick st = endGame false { st with timeLeft := st.timeLeft - 1 } := by
  simp only [timerTick]
  exact if_pos ⟨h, hA⟩

/-- C5: the timeout signal (the `endGame(false)` announcement, counted
by `loseAlerts`) fires on a tick iff the remaining time reaches 0 while
the game is active; firing deactivates the game and stops the ticking
(clears the interval), a further tick does not fire again, and any
subsequent `endGame` call on the now-inactive game changes nothing;
a tick while the game is inactive never fires the signal. -/
theorem claim_C5 :
    (∀ st : GameState, st.gameActive = true → 0 < st.timeLeft →
      (((timerTick st).loseAlerts = st.loseAlerts + 1) ↔ st.timeLeft = 1) ∧
      (st.timeLeft = 1 →
        (timerTick st).gameActive = false ∧
        (timerTick st).timerRunning = false ∧
        (timerTick (timerTick st)).loseAlerts = (timerTick st).loseAlerts ∧
        (∀ b, endGame b (timerTick st) = timerTick st))) ∧
    (∀ st : GameState, st.gameActive = false →
      (timerTick st).loseAlerts = st.loseAlerts) ∧
    (∀ (b : Bool) (st : GameState), st.gameActive = false → endGame b st = st) := by
  refine ⟨?_, ?_, fun b st h => endGame_inactive b st h⟩
  · intro st hA ht
    by_cases h1 : st.timeLeft = 1
    · rw [timerTick_fire st (by omega) hA,
        endGame_false_timeout { st with timeLeft := st.timeLeft - 1 } hA
          (show st.timeLeft - 1 ≤ 0 by omega)]
      refine ⟨by simp [h1], fun h1x => ⟨rfl, rfl, ?_, fun b => endGame_inactive b _ rfl⟩⟩
      simp [timerTick]
    · rw [timerTick_run st (fun hcon => absurd hcon.1 (by omega))]
      simp [h1]
  · intro st h
    by_cases hrun : st.timeLeft - 1 ≤ 0
    · rw [timerTick_run st (fun hcon => by rw [h] at hcon; simpa using hcon.2)]
    · rw [timerTick_run st (fun hcon => hrun hcon.1)]

/-- Witness for C5: a tick on an active game with one second left. -/
theorem claim_C5_witness :
    (timerTick { demoMatchState with timeLeft := 1 }).loseAlerts =
      demoMatchState.loseAlerts + 1 ∧
    (timerTick { demoMatchState with timeLeft := 1 }).gameActive = false ∧
    (timerTick { demoMatchState with timeLeft := 1 }).timerRunning = false := by
  have h := claim_C5.1 { demoMatchState with timeLeft := 1 } rfl (by decide)
  exact ⟨h.1.mpr rfl, (h.2 rfl).1, (h.2 rfl).2.1⟩

/-- All engine operations other than a game reset leave
`powerUpUsedThisGame` unchanged; `endGame` in particular. -/
theorem endGame_powerUp (b : Bool) (st : GameState) :
    (endGame b st).powerUpUsedThisGame = st.powerUpUsedThisGame := by
  unfold endGame
  split_ifs <;> try rfl
  all_goals dsimp only
  all_goals split_ifs <;> rfl

/-- C8: within one game only the first power-up activation has any
effect: activation is a no-op when the game is inactive, the board is
locked, or the power-up was already used; an effective activation flips
`powerUpUsedThisGame` to true; activating twice equals activating once;
and no other engine operation (click, tick, mismatch flip-back, settle,
reveal-end conceal, endGame) ever resets the flag, so it stays true for
the rest of the game. -/
theorem claim_C8 :
    (∀ st : GameState, st.gameActive = false → activatePowerUp st = st) ∧
    (∀ st : GameState, st.lockBoard = true → activatePowerUp st = st) ∧
    (∀ st : GameState, st.powerUpUsedThisGame = true → activatePowerUp st = st) ∧
    (∀ st : GameState, st.gameActive = true → st.lockBoard = false →
      st.powerUpUsedThisGame = false → (activatePowerUp st).powerUpUsedThisGame = true) ∧
    (∀ st : GameState, activatePowerUp (activatePowerUp st) = activatePowerUp st) ∧
    (∀ (st : GameState) (i : Nat),
      (handleCardClick st i).powerUpUsedThisGame = st.powerUpUsedThisGame) ∧
    (∀ st : GameState, (timerTick st).powerUpUsedThisGame = st.powerUpUsedThisGame) ∧
    (∀ st : GameState, (fireMismatch st).powerUpUsedThisGame = st.powerUpUsedThisGame) ∧
    (∀ st : GameState, (fireSettle st).powerUpUsedThisGame = st.powerUpUsedThisGame) ∧
    (∀ (st : GameState) (ts : List Nat),
      (fireRevealEnd st ts).powerUpUsedThisGame = st.powerUpUsedThisGame) ∧
    (∀ (b : Bool) (st : GameState),
      (endGame b st).powerUpUsedThisGame = st.powerUpUsedThisGame) := by
  have hguardid : ∀ st : GameState,
      st.gameActive = false ∨ st.lockBoard = true ∨ st.powerUpUsedThisGame = true →
      activatePowerUp st = st := by
    intro st hg
    unfold activatePowerUp
    rw [if_pos hg]
  have heff : ∀ st : GameState,
      ¬(st.gameActive = false ∨ st.lockBoard = true ∨ st.powerUpUsedThisGame = true) →
      (activatePowerUp st).powerUpUsedThisGame = true := by
    intro st hg
    unfold activatePowerUp
    rw [if_neg hg]
    rfl
  refine ⟨fun st h => hguardid st (Or.inl h), fun st h => hguardid st (Or.inr (Or.inl h)),
    fun st h => hguardid st (Or.inr (Or.inr h)), ?_, ?_, ?_, ?_, ?_, ?_, ?_,
    fun b st => endGame_powerUp b st⟩
  · intro st hA hL hP
    exact heff st (by simp [hA, hL, hP])
  · intro st
    by_cases hg : st.gameActive = false ∨ st.lockBoard = true ∨ st.powerUpUsedThisGame = true
    · rw [hguardid st hg, hguardid st hg]
    · exact hguardid _ (Or.inr (Or.inr (heff st hg)))
  · intro st i
    rcases hc : st.cards[i]? with - | c
    · simp [handleCardClick, hc]
    · rcases hF : st.firstCard with - | j <;>
        simp only [handleCardClick, hc, hF] <;>
        split_ifs <;>
        simp [processMatch, processMismatch]
  · intro st
    unfold timerTick
    dsimp only
    split_ifs with h
    · exact endGame_powerUp false _
    · rfl
  · intro st
    rfl
  · intro st
    unfold fireSettle settleWinCheck
    split_ifs with h
    · exact endGame_powerUp true _
    · rfl
  · intro st ts
    rfl

/-- Witness for C8: a no-op activation on an ended game, an effective
activation on the demo board, and idempotence of activation. -/
theorem claim_C8_witness :
    activatePowerUp demoEndedState = demoEndedState ∧
    (activatePowerUp demoMatchState).powerUpUsedThisGame = true ∧
    activatePowerUp (activatePowerUp demoMatchState) = activatePowerUp demoMatchState := by
  have h := claim_C8
  exact ⟨h.1 demoEndedState rfl, h.2.2.2.1 demoMatchState rfl rfl rfl,
    h.2.2.2.2.1 demoMatchState⟩

/-- Pointwise characterisation of the conceal loop of the power-up
reveal-end callback: a card is unflipped exactly when it is targeted,
not matched, and its `data-card-id` is not the pending first card's id;
in every other case it is left exactly as it was. -/
theorem concealFold_getElem (first : Option String) (ts : List Nat) :
    ∀ (cs : List Card) (k : Nat) (c : Card), cs[k]? = some c →
      (ts.foldl (concealStep first) cs)[k]? =
        some (if k ∈ ts ∧ c.matched = false ∧ ¬first = some c.cardId
          then { c with flipped := false } else c) := by
  induction ts with
  | nil =>
    intro cs k c hc
    simpa using hc
  | cons t ts ih =>
    intro cs k c hc
    rw [List.foldl_cons]
    by_cases hkt : t = k
    · subst hkt
      by_cases hfirst : first = some c.cardId
      · have hstep : concealStep first cs t = cs := by
          unfold concealStep; simp only [hc]; rw [if_pos hfirst]
        rw [hstep, ih cs t c hc]
        simp [hfirst]
      · by_cases hm : c.matched = true
        · have hstep : concealStep first cs t = cs := by
            unfold concealStep; simp only [hc]; rw [if_neg hfirst, if_pos hm]
          rw [hstep, ih cs t c hc]
          simp [hm]
        · have hm2 : c.matched = false := by
            revert hm; cases c.matched <;> simp
          have hstep : concealStep first cs t = cs.set t { c with flipped := false } := by
            unfold concealStep; simp only [hc]; rw [if_neg hfirst, if_neg hm]
          obtain ⟨hlen, -⟩ := List.getElem?_eq_some.mp hc
          have hc2 : (cs.set t { c with flipped := false })[t]? =
              some { c with flipped := false } :=
            List.getElem?_set_self hlen
          rw [hstep, ih _ t _ hc2]
          simp [hm2, hfirst]
    · have hc2 : (concealStep first cs t)[k]? = some c := by
        unfold concealStep
        cases hct : cs[t]? with
        | none => exact hc
        | some ct =>
          show (if first = some ct.cardId then cs
            else if ct.matched = true then cs
            else cs.set t { ct with flipped := false })[k]? = some c
          split_ifs <;> first
            | exact hc
            | rw [List.getElem?_set_ne hkt]; exact hc
      rw [ih _ k c hc2]
      have hkt2 : ¬k = t := fun h => hkt h.symm
      simp [List.mem_cons, hkt2]

/-- C7: at the end of the power-up reveal duration, every targeted tile
is flipped back to FaceDown except tiles that are now Matched and the
tile whose `data-card-id` equals the pending first selection's id (those
are left exactly as they were), and the board ends unlocked iff there is
no pending first selection awaiting a second selection
(`lockBoard = firstCard && !secondCard`). -/
theorem claim_C7 (st : GameState) (targets : List Nat) (k : Nat) (c : Card)
    (hk : k ∈ targets) (hc : st.cards[k]? = some c) :
    (c.matched = true → (fireRevealEnd st targets).cards[k]? = some c) ∧
    ((st.firstCard.bind fun j => st.cards[j]?).map Card.cardId = some c.cardId →
      (fireRevealEnd st targets).cards[k]? = some c) ∧
    (c.matched = false →
      ¬(st.firstCard.bind fun j => st.cards[j]?).map Card.cardId = some c.cardId →
      (fireRevealEnd st targets).cards[k]? = some { c with flipped := false }) ∧
    ((fireRevealEnd st targets).lockBoard = false ↔
      ¬(st.firstCard.isSome = true ∧ st.secondCard.isNone = true)) := by
  have hchar := concealFold_getElem ((st.firstCard.bind fun j => st.cards[j]?).map Card.cardId)
    targets st.cards k c hc
  refine ⟨?_, ?_, ?_, ?_⟩
  · intro hm
    show (targets.foldl (concealStep _) st.cards)[k]? = some c
    rw [hchar, if_neg (fun hcon => absurd hcon.2.1 (by simp [hm]))]
  · intro hf
    show (targets.foldl (concealStep _) st.cards)[k]? = some c
    rw [hchar, if_neg (fun hcon => hcon.2.2 hf)]
  · intro hm hf
    show (targets.foldl (concealStep _) st.cards)[k]? = some { c with flipped := false }
    rw [hchar, if_pos ⟨hk, hm, hf⟩]
  · show (st.firstCard.isSome && st.secondCard.isNone) = false ↔
      ¬(st.firstCard.isSome = true ∧ st.secondCard.isNone = true)
    cases st.firstCard <;> cases st.secondCard <;> simp

/-- Demo state during a power-up reveal: all three cards revealed, card
2 already matched, card 0 held as the pending first selection, board
locked for the reveal. -/
def demoRevealState : GameState :=
  { demoMatchState with
    cards := [{ cardId := "7-a", pokemonId := 7, flipped := true, matched := false },
              { cardId := "7-b", pokemonId := 7, flipped := true, matched := false },
              { cardId := "9-a", pokemonId := 9, flipped := true, matched := true }]
    firstCard := some 0
    lockBoard := true }

/-- Witness for C7: after the reveal ends, the targeted unmatched
non-pending card 1 is FaceDown again while the board stays locked
because the first selection is still pending. -/
theorem claim_C7_witness :
    (fireRevealEnd demoRevealState [0, 1, 2]).cards[1]? =
      some { cardId := "7-b", pokemonId := 7, flipped := false, matched := false } ∧
    ¬(fireRevealEnd demoRevealState [0, 1, 2]).lockBoard = false := by
  have h := claim_C7 demoRevealState [0, 1, 2] 1
    { cardId := "7-b", pokemonId := 7, flipped := true, matched := false }
    (by decide) rfl
  refine ⟨h.2.2.1 rfl (by decide), fun hcon => ?_⟩
  have h2 := h.2.2.2.mp hcon
  exact h2 (by decide)

/-- Across any single `handleCardClick` call the click counter never
decreases: the only decrement (the same-card revert branch) always
follows the increment made earlier in the same call. -/
theorem handleCardClick_clicks_mono (st : GameState) (i : Nat) :
    st.clicks ≤ (handleCardClick st i).clicks := by
  rcases hc : st.cards[i]? with - | c
  · simp [handleCardClick, hc]
  · rcases hF : st.firstCard with - | j <;>
      simp only [handleCardClick, hc, hF] <;>
      split_ifs <;>
      simp [processMatch, processMismatch]

/-- Trace for C9 and C6, game 1, mismatch variant: two cards of
different pokemon, both clicked, so the 1000 ms flip-back callback is
outstanding. -/
def revertTraceGame1 : GameState :=
  { cards := [{ cardId := "1-a", pokemonId := 1, flipped := false, matched := false },
              { cardId := "2-a", pokemonId := 2, flipped := false, matched := false }]
    firstCard := none
    secondCard := none
    lockBoard := false
    gameActive := true
    clicks := 0
    pairsMatched := 0
    timeLeft := 60
    numPairs := 1
    timerRunning := true
    powerUpUsedThisGame := false
    winAlerts := 0
    loseAlerts := 0
    pending := []
    revertTaken := 0 }

/-- Game 1 after its mismatching turn: flip-back callback pending. -/
def revertTraceMismatch : GameState :=
  handleCardClick (handleCardClick revertTraceGame1 0) 1

/-- The player resets while the flip-back callback is still
outstanding; `initializeGame` clears only the interval, not the
`setTimeout` queue. -/
def revertTraceNewGame : GameState :=
  resetGame revertTraceMismatch
    [{ cardId := "5-a", pokemonId := 5, flipped := false, matched := false },
     { cardId := "5-b", pokemonId := 5, flipped := false, matched := false }] 1 60

/-- First selection of the new game. -/
def revertTraceClicked : GameState := handleCardClick revertTraceNewGame 0

/-- The stale flip-back callback from game 1 now fires: it reads the
current `firstCard` global — the new game's pending selection — and
unflips it. -/
def revertTraceStale : GameState := firePending revertTraceClicked 0

/-- Re-clicking the pending first card after the stale callback
unflipped it. -/
def revertTraceReclick : GameState := handleCardClick revertTraceStale 0

/-- Counterexample to C9 as stated: a reachable state (click, click,
reset, click, stale flip-back callback fires) in which the pending
first-selection tile is FaceDown while the board is unlocked and the
game active, so re-clicking it passes every guard and executes the
same-card revert branch (the ghost counter `revertTaken` increments):
the revert branch is not unreachable. -/
theorem claim_C9_counterexample :
    revertTraceStale.firstCard = some 0 ∧
    (revertTraceStale.cards[0]?).map Card.flipped = some false ∧
    revertTraceStale.gameActive = true ∧
    revertTraceStale.lockBoard = false ∧
    revertTraceStale.revertTaken = 0 ∧
    revertTraceReclick.revertTaken = 1 := by decide

/-- C9 amended: whenever the tile held as the pending first selection is
(as in every state not corrupted by a stale cross-game callback) still
FaceUp, re-clicking it is rejected by the already-FaceUp guard with no
state change; and unconditionally, the clicks counter never decreases
across a `handleCardClick` call and never becomes negative. -/
theorem claim_C9_amended :
    (∀ (st : GameState) (i : Nat) (c : Card), st.firstCard = some i →
      st.cards[i]? = some c → c.flipped = true → handleCardClick st i = st) ∧
    (∀ (st : GameState) (i : Nat), st.clicks ≤ (handleCardClick st i).clicks) ∧
    (∀ (st : GameState) (i : Nat), 0 ≤ st.clicks → 0 ≤ (handleCardClick st i).clicks) := by
  refine ⟨?_, handleCardClick_clicks_mono, ?_⟩
  · intro st i c hF hc hf
    simp [handleCardClick, hc, hf]
  · intro st i h
    exact le_trans h (handleCardClick_clicks_mono st i)

/-- Witness for the amended C9. -/
theorem claim_C9_witness :
    handleCardClick (handleCardClick demoMatchState 0) 0 = handleCardClick demoMatchState 0 ∧
    demoMatchState.clicks ≤ (handleCardClick demoMatchState 0).clicks ∧
    0 ≤ (handleCardClick demoMatchState 0).clicks := by
  have h := claim_C9_amended
  exact ⟨h.1 (handleCardClick demoMatchState 0) 0
      { cardId := "7-a", pokemonId := 7, flipped := true, matched := false }
      (by decide) (by decide) rfl,
    h.2.1 demoMatchState 0, h.2.2 demoMatchState 0 (by decide)⟩

/-- Trace for C6, game 1, match variant: the winning match of game 1
leaves its 200 ms settle callback outstanding when the player resets. -/
def staleTraceGame1 : GameState :=
  { revertTraceGame1 with
    cards := [{ cardId := "7-a", pokemonId := 7, flipped := false, matched := false },
              { cardId := "7-b", pokemonId := 7, flipped := false, matched := false }] }

/-- Game 1 after its winning match: settle callback pending, board
locked. -/
def staleTraceMatched : GameState :=
  handleCardClick (handleCardClick staleTraceGame1 0) 1

/-- The player resets before the settle callback fires; the new game
starts with the stale settle callback still queued (`initializeGame`
only calls `clearInterval`). -/
def staleTraceNewGame : GameState :=
  resetGame staleTraceMatched
    [{ cardId := "3-a", pokemonId := 3, flipped := false, matched := false },
     { cardId := "4-a", pokemonId := 4, flipped := false, matched := false }] 1 60

/-- The new game's first turn: a mismatch, so the board is locked and a
pending pair is recorded while the new game's own callbacks are in
flight. -/
def staleTraceMid : GameState :=
  handleCardClick (handleCardClick staleTraceNewGame 0) 1

/-- The stale settle callback from game 1 fires mid-evaluation of the
new game's turn. -/
def staleTraceAfter : GameState := firePending staleTraceMid 0

/-- C6 fails on the code: `initializeGame` cancels only the timer
interval, so the settle callback scheduled by game 1's final match
survives the reset (it is still queued in the new game) and, when it
fires, clears the new game's board lock and pending pair while that
game's own mismatch evaluation is still in flight — a stale callback
mutating the new game's lock flag and pending selections, and running
the win check against the new game's counters. -/
theorem claim_C6 :
    staleTraceMatched.pending = [Callback.settle] ∧
    staleTraceNewGame.pending = [Callback.settle] ∧
    staleTraceMid.lockBoard = true ∧
    staleTraceMid.firstCard = some 0 ∧
    staleTraceMid.secondCard = some 1 ∧
    staleTraceMid.pending = [Callback.settle, Callback.mismatch] ∧
    staleTraceAfter.lockBoard = false ∧
    staleTraceAfter.firstCard = none ∧
    staleTraceAfter.secondCard = none ∧
    staleTraceAfter.gameActive = true := by decide

/-- C4: every deck produced by the deck builder — any shuffle
(permutation) of the card data built from a selection of items with
pairwise distinct ids — has even length, every `data-pokemon-id`
occurring among its cards occurs on exactly two cards, and all
`data-card-id`s are distinct. -/
theorem claim_C4 (selected : List Item) (deck : List Card)
    (hids : (selected.map Item.id).Nodup)
    (hshuffle : deck.Perm (buildCardsData selected)) :
    deck.length % 2 = 0 ∧
    (∀ pid ∈ deck.map Card.pokemonId, List.count pid (deck.map Card.pokemonId) = 2) ∧
    (deck.map Card.cardId).Nodup := by
  have hm : (deck.map Card.pokemonId).Perm ((buildCardsData selected).map Card.pokemonId) :=
    hshuffle.map _
  have hcid : (deck.map Card.cardId).Perm ((buildCardsData selected).map Card.cardId) :=
    hshuffle.map _
  refine ⟨?_, ?_, ?_⟩
  · rw [hshuffle.length_eq]
    exact buildCardsData_length_even selected
  · intro pid hpid
    rw [hm.count_eq pid]
    exact count_pokemonId_buildCardsData selected pid hids (hm.mem_iff.mp hpid)
  · exact hcid.symm.nodup (nodup_cardId_buildCardsData selected hids)

/-- Witness for C4 on a concrete two-item selection. -/
theorem claim_C4_witness :
    (buildCardsData [{ id := 7, name := "pikachu", imageUrl := "img7" },
      { id := 12, name := "butterfree", imageUrl := "img12" }]).length % 2 = 0 ∧
    (∀ pid ∈ (buildCardsData [{ id := 7, name := "pikachu", imageUrl := "img7" },
        { id := 12, name := "butterfree", imageUrl := "img12" }]).map Card.pokemonId,
      List.count pid ((buildCardsData [{ id := 7, name := "pikachu", imageUrl := "img7" },
        { id := 12, name := "butterfree", imageUrl := "img12" }]).map Card.pokemonId) = 2) ∧
    ((buildCardsData [{ id := 7, name := "pikachu", imageUrl := "img7" },
      { id := 12, name := "butterfree", imageUrl := "img12" }]).map Card.cardId).Nodup :=
  claim_C4 [{ id := 7, name := "pikachu", imageUrl := "img7" },
      { id := 12, name := "butterfree", imageUrl := "img12" }]
    (buildCardsData [{ id := 7, name := "pikachu", imageUrl := "img7" },
      { id := 12, name := "butterfree", imageUrl := "img12" }])
    (by decide) (List.Perm.refl _)
